import Mathlib

/-!
The program "ASCII" of `test1.c`.

A shallow embedding of `src/test1.c`: the global variables `uc`, `fromASCII`,
`toASCII`, `x`, the locals of `main`, and the statements of `main` as
functions on an explicit program state.  Standard output is a list of
characters, one per byte written.
-/

namespace Test1

/-! ## Machine integers -/

/-- Reduction of an integer into the signed range of a `w`-bit word. -/
def wrapSigned (w : Nat) (v : Int) : Int :=
  (v + 2 ^ (w - 1)) % 2 ^ w - 2 ^ (w - 1)

/-- Conversion of a value to `unsigned char` (8 bits). -/
def toUChar (v : Int) : Nat :=
  (v % 256).toNat

/-- Width of `int`. -/
def intBits : Nat := 32

/-! ## Data model -/

/-- The local type `struct data` of `main`. -/
structure data where
  rok : Int
  miesiac : Int
  dzien : Int
  deriving DecidableEq, Repr

/-- Which variable the third clause of the print loop header increments.
The source text has `uc1++`; the reading in which the loop variable itself
is incremented is `IncrTarget.uc`. -/
inductive IncrTarget where
  | uc
  | uc1
  deriving DecidableEq, Repr

/-- Ways in which a modelled run stops without a result. -/
inductive Fault where
  | outOfBounds
  | outOfFuel
  deriving DecidableEq, Repr

/-- Program state: the globals, the locals of `main`, and standard output. -/
structure State where
  /-- Global `unsigned char uc`. -/
  uc : Nat
  /-- Modelled from the spec: `uc1` is not declared in `test1.c` (the header
  `test.h` is not available); it is kept as an integer variable distinct
  from `uc`. -/
  uc1 : Int
  /-- Global `int fromASCII`. -/
  fromASCII : Int
  /-- Global `int toASCII`. -/
  toASCII : Int
  /-- Global `long int x[10]`. -/
  x : List Int
  /-- Local `data poczatek`. -/
  poczatek : data
  /-- Local `data koniec`. -/
  koniec : data
  /-- Local `int i`. -/
  i : Int
  /-- Local `int x1`. -/
  x1 : Int
  /-- Local `double realTest`. -/
  realTest : Float
  /-- Standard output, in order of writing. -/
  out : List Char

/-- State at entry of `main`: the globals carry their initialisers (`uc` and
`x` are zero-initialised), standard output is empty, and everything else
(the locals, and `uc1`) keeps the indeterminate content of `junk`. -/
def initState (junk : State) : State :=
  { junk with
    uc := 0
    fromASCII := 128
    toASCII := 255
    x := List.replicate 10 0
    out := [] }

/-! ## Formatted output -/

/-- Right-justification in a field of minimal width `w`. -/
def rightJustify (w : Nat) (s : List Char) : List Char :=
  List.replicate (w - s.length) ' ' ++ s

/-- Conversion `%<w>d` of a non-negative value. -/
def fmtD (w : Nat) (v : Nat) : List Char :=
  rightJustify w (Nat.repr v).toList

/-- Conversion `%<w>c`: the argument is converted to `unsigned char` and
written as one character. -/
def fmtC (w : Nat) (v : Nat) : List Char :=
  rightJustify w [Char.ofNat (v % 256)]

/-- The text of `printf( "Rozszerzone kody ASCII\n\n")`. -/
def headerText : List Char :=
  "Rozszerzone kody ASCII\n\n".toList

/-- The text of `printf( "%3d:%2c", uc, uc ); printf("\n");`. -/
def codeLine (c : Nat) : List Char :=
  (fmtD 3 c ++ [':'] ++ fmtC 2 c) ++ ['\n']

/-! ## Statements of `main` -/

/-- Line 18: `printf( "Rozszerzone kody ASCII\n\n");`. -/
def printHeader (s : State) : State :=
  { s with out := s.out ++ headerText }

/-- Loop initialisation `uc = fromASCII`. -/
def loopInit (s : State) : State :=
  { s with uc := toUChar s.fromASCII }

/-- Loop guard `uc <= toASCII` (`uc` is promoted to `int`). -/
def loopGuard (s : State) : Bool :=
  decide ((s.uc : Int) ≤ s.toASCII)

/-- Loop body, line 20. -/
def loopBody (s : State) : State :=
  { s with out := s.out ++ codeLine s.uc }

/-- Third clause of the loop header: `++` on the chosen variable. -/
def loopIncr (t : IncrTarget) (s : State) : State :=
  match t with
  | IncrTarget.uc => { s with uc := toUChar ((s.uc : Int) + 1) }
  | IncrTarget.uc1 => { s with uc1 := s.uc1 + 1 }

/-- State after at most `n` iterations of the print loop, started at the
first evaluation of the guard. -/
def iterateLoop (t : IncrTarget) : Nat → State → State
  | 0, s => s
  | n + 1, s =>
    if loopGuard s then iterateLoop t n (loopIncr t (loopBody s)) else s

/-- Codes for which a line is written during the first `n` iterations. -/
def emittedCodes (t : IncrTarget) : Nat → State → List Nat
  | 0, _ => []
  | n + 1, s =>
    if loopGuard s then s.uc :: emittedCodes t n (loopIncr t (loopBody s)) else []

/-- The print loop after its initialisation, lines 19-21, with fuel: the
result is the state in which the guard is found false. -/
def runLoop (t : IncrTarget) : Nat → State → Except Fault State
  | 0, _ => Except.error Fault.outOfFuel
  | n + 1, s =>
    if loopGuard s then runLoop t n (loopIncr t (loopBody s)) else Except.ok s

/-- Line 22: `int x1 = fromASCII + 2 * ( 20 + toASCII );`. -/
def computeX1 (s : State) : State :=
  { s with
    x1 := wrapSigned intBits
      (s.fromASCII + wrapSigned intBits (2 * wrapSigned intBits (20 + s.toASCII))) }

/-- Line 23: `double realTest = 12.34e-12 + .56 + 78.;`. -/
def computeRealTest (s : State) : State :=
  { s with realTest := 12.34e-12 + 0.56 + 78.0 }

/-- Read of `x[idx]`. -/
def readX (s : State) (idx : Int) : Except Fault Int :=
  if 0 ≤ idx ∧ idx < 10 then
    match s.x[idx.toNat]? with
    | some v => Except.ok v
    | none => Except.error Fault.outOfBounds
  else Except.error Fault.outOfBounds

/-- Write `x[idx] = v`. -/
def writeX (s : State) (idx : Int) (v : Int) : Except Fault State :=
  if 0 ≤ idx ∧ idx < 10 ∧ idx.toNat < s.x.length then
    Except.ok { s with x := s.x.set idx.toNat v }
  else Except.error Fault.outOfBounds

/-- Line 26: `x[i] = x[i-1] * i * i;` with `long int` of `w` bits. -/
def fillBody (w : Nat) (s : State) : Except Fault State :=
  match readX s (s.i - 1) with
  | Except.error e => Except.error e
  | Except.ok prev => writeX s s.i (wrapSigned w (wrapSigned w (prev * s.i) * s.i))

/-- Lines 25-27: `for (i = 1; i < 10; i++) { ... }` after `i = 1`. -/
def fillLoop (w : Nat) : Nat → State → Except Fault State
  | 0, _ => Except.error Fault.outOfFuel
  | n + 1, s =>
    if s.i < 10 then
      match fillBody w s with
      | Except.error e => Except.error e
      | Except.ok s1 => fillLoop w n { s1 with i := wrapSigned intBits (s1.i + 1) }
    else Except.ok s

/-- Lines 24-27: the array fill. -/
def arrayFill (w : Nat) (fuel : Nat) (s : State) : Except Fault State :=
  match writeX s 0 1 with
  | Except.error e => Except.error e
  | Except.ok s1 => fillLoop w fuel { s1 with i := 1 }

/-- Lines 28-30: the three assignments to `poczatek`. -/
def populateRecord (s : State) : State :=
  let s1 := { s with poczatek := { s.poczatek with rok := 2018 } }
  let s2 := { s1 with poczatek := { s1.poczatek with miesiac := 10 } }
  { s2 with poczatek := { s2.poczatek with dzien := 1 } }

/-- Lines 22-30: everything after the print loop. -/
def afterLoop (w : Nat) (fuel : Nat) (s : State) : Except Fault State :=
  match arrayFill w fuel (computeRealTest (computeX1 s)) with
  | Except.error e => Except.error e
  | Except.ok s1 => Except.ok (populateRecord s1)

/-- State in which the guard of the print loop is evaluated first. -/
def loopStart (junk : State) : State :=
  loopInit (printHeader (initState junk))

/-- The procedure `main`, lines 18-30. -/
def main (t : IncrTarget) (w : Nat) (fuel : Nat) (junk : State) : Except Fault State :=
  match runLoop t fuel (loopStart junk) with
  | Except.error e => Except.error e
  | Except.ok s => afterLoop w fuel s

/-- A state used to instantiate the indeterminate locals. -/
def junk0 : State :=
  { uc := 0, uc1 := 0, fromASCII := 0, toASCII := 0, x := [],
    poczatek := ⟨0, 0, 0⟩, koniec := ⟨0, 0, 0⟩, i := 0, x1 := 0,
    realTest := 0.0, out := [] }


/-- The array-fill loop cut after at most `n` iterations: the state in which
the guard `i < 10` is evaluated for the `(n+1)`-th time. -/
def fillIterate (w : Nat) : Nat → State → Except Fault State
  | 0, s => Except.ok s
  | n + 1, s =>
    if s.i < 10 then
      match fillBody w s with
      | Except.error e => Except.error e
      | Except.ok s1 => fillIterate w n { s1 with i := wrapSigned intBits (s1.i + 1) }
    else Except.ok s

/-- The array fill cut after at most `n` iterations of its loop. -/
def arrayFillPrefix (w : Nat) (n : Nat) (s : State) : Except Fault State :=
  match writeX s 0 1 with
  | Except.error e => Except.error e
  | Except.ok s1 => fillIterate w n { s1 with i := 1 }

/-- The lines written for a list of codes. -/
def linesOf (cs : List Nat) : List Char :=
  (cs.map codeLine).flatten

/-! ## The array fill -/

/-- The values the spec lists for the numeric sequence. -/
def specSequence : List Int :=
  [1, 1, 4, 36, 576, 14400, 518400, 25401600, 1625702400, 131681894400]

theorem list_length_ten {α : Type} (l : List α) (h : l.length = 10) :
    ∃ a0 a1 a2 a3 a4 a5 a6 a7 a8 a9, l = [a0, a1, a2, a3, a4, a5, a6, a7, a8, a9] := by
  match l, h with
  | [a0, a1, a2, a3, a4, a5, a6, a7, a8, a9], _ =>
    exact ⟨a0, a1, a2, a3, a4, a5, a6, a7, a8, a9, rfl⟩

/-- With 64-bit `long int` and fuel for the ten guard evaluations, the
array fill ends normally: `x` holds the listed values, `i` is 10 and
nothing else has changed. -/
theorem arrayFill_64_eq (s : State) (h : s.x.length = 10) (n : Nat) :
    arrayFill 64 (n + 10) s = Except.ok { s with x := specSequence, i := 10 } := by
  obtain ⟨a0, a1, a2, a3, a4, a5, a6, a7, a8, a9, hx⟩ := list_length_ten s.x h
  simp [arrayFill, fillLoop, fillBody, readX, writeX, hx, wrapSigned, intBits, specSequence]

/-- Uniform in the width of `long int`: the array fill ends normally, with
`i = 10`, all of its index checks having succeeded. -/
theorem arrayFill_ok (w : Nat) (s : State) (h : s.x.length = 10) (n : Nat) :
    ∃ s1, arrayFill w (n + 10) s = Except.ok s1 ∧ s1.i = 10 ∧ s1.x.length = 10 := by
  obtain ⟨a0, a1, a2, a3, a4, a5, a6, a7, a8, a9, hx⟩ := list_length_ten s.x h
  simp [arrayFill, fillLoop, fillBody, readX, writeX, hx, intBits]
  simp [wrapSigned]

theorem arrayFill_short (w : Nat) (s : State) (h : s.x.length = 10) (fuel : Nat)
    (hf : fuel < 10) : arrayFill w fuel s = Except.error Fault.outOfFuel := by
  obtain ⟨a0, a1, a2, a3, a4, a5, a6, a7, a8, a9, hx⟩ := list_length_ten s.x h
  interval_cases fuel <;>
    simp [arrayFill, fillLoop, fillBody, readX, writeX, hx, intBits] <;>
    simp [wrapSigned]

/-- After `k ≤ 9` iterations of the fill loop the elements `0..k` already
hold their final values. -/
theorem arrayFillPrefix_64 (s : State) (h : s.x.length = 10) (k : Nat) (hk : k ≤ 9) :
    ∃ sk, arrayFillPrefix 64 k s = Except.ok sk ∧
      ∀ j : Nat, j ≤ k → sk.x[j]? = specSequence[j]? := by
  obtain ⟨a0, a1, a2, a3, a4, a5, a6, a7, a8, a9, hx⟩ := list_length_ten s.x h
  interval_cases k <;>
    simp [arrayFillPrefix, fillIterate, fillBody, readX, writeX, hx, wrapSigned, intBits,
      specSequence] <;>
    intro j hj <;> interval_cases j <;> simp

/-- C1: with 64-bit `long int`, the array fill ends normally and leaves
`x = [1, 1, 4, 36, 576, 14400, 518400, 25401600, 1625702400, 131681894400]`
at indices 0..9, from every state in which `x` has its ten elements. -/
theorem C1_arrayFill_sequence (s : State) (h : s.x.length = 10) (n : Nat) :
    ∃ s1, arrayFill 64 (n + 10) s = Except.ok s1 ∧
      s1.x = [1, 1, 4, 36, 576, 14400, 518400, 25401600, 1625702400, 131681894400] :=
  ⟨_, arrayFill_64_eq s h n, rfl⟩

theorem C1_arrayFill_sequence_witness :
    (initState junk0).x.length = 10 ∧
    ∃ s1, arrayFill 64 (0 + 10) (initState junk0) = Except.ok s1 ∧
      s1.x = [1, 1, 4, 36, 576, 14400, 518400, 25401600, 1625702400, 131681894400] :=
  ⟨by decide, C1_arrayFill_sequence (initState junk0) (by decide) 0⟩

/-- C2: after the array fill (64-bit `long int`), `x[0] = 1` and for every
`i` with `1 ≤ i ≤ 9`, `x[i] = x[i-1] * i * i` in exact integer arithmetic on
the final values; moreover each element `j` has its final value from the
iteration that wrote it onwards, so no element is overwritten after a later
step has read it. -/
theorem C2_arrayFill_recurrence (s : State) (h : s.x.length = 10) (n : Nat) :
    ∃ s1, arrayFill 64 (n + 10) s = Except.ok s1 ∧
      s1.x[0]? = some 1 ∧
      (∀ i : Nat, 1 ≤ i → i ≤ 9 →
        ∃ a b : Int, s1.x[i - 1]? = some a ∧ s1.x[i]? = some b ∧ b = a * i * i) ∧
      (∀ k : Nat, k ≤ 9 → ∃ sk, arrayFillPrefix 64 k s = Except.ok sk ∧
        ∀ j : Nat, j ≤ k → sk.x[j]? = s1.x[j]?) := by
  refine ⟨_, arrayFill_64_eq s h n, ?_, ?_, ?_⟩
  · simp [specSequence]
  · intro i h1 h9
    interval_cases i <;> simp [specSequence]
  · intro k hk
    exact arrayFillPrefix_64 s h k hk

theorem C2_arrayFill_recurrence_witness :
    (initState junk0).x.length = 10 ∧
    ∃ s1, arrayFill 64 (0 + 10) (initState junk0) = Except.ok s1 ∧
      s1.x[0]? = some 1 ∧
      (∀ i : Nat, 1 ≤ i → i ≤ 9 →
        ∃ a b : Int, s1.x[i - 1]? = some a ∧ s1.x[i]? = some b ∧ b = a * i * i) ∧
      (∀ k : Nat, k ≤ 9 → ∃ sk, arrayFillPrefix 64 k (initState junk0) = Except.ok sk ∧
        ∀ j : Nat, j ≤ k → sk.x[j]? = s1.x[j]?) :=
  ⟨by decide, C2_arrayFill_recurrence (initState junk0) (by decide) 0⟩

/-- C8: whatever the width of `long int` and whatever the fuel, the array
fill never takes the out-of-bounds branch of an index check when `x` has its
ten elements: the seed write `x[0]`, every read `x[i-1]` and every write
`x[i]` use an index in `[0,9]`; with fuel for the ten guard evaluations the
fill ends normally with `i = 10`. -/
theorem C8_arrayFill_in_bounds (w : Nat) (s : State) (h : s.x.length = 10) (fuel : Nat) :
    arrayFill w fuel s ≠ Except.error Fault.outOfBounds ∧
    (10 ≤ fuel → ∃ s1, arrayFill w fuel s = Except.ok s1 ∧ s1.i = 10 ∧ s1.x.length = 10) := by
  by_cases hf : fuel < 10
  · refine ⟨?_, fun h10 => absurd h10 (by omega)⟩
    rw [arrayFill_short w s h fuel hf]
    simp
  · obtain ⟨n, rfl⟩ : ∃ n, fuel = n + 10 := ⟨fuel - 10, by omega⟩
    obtain ⟨s1, hs1, hi, hl⟩ := arrayFill_ok w s h n
    exact ⟨by rw [hs1]; simp, fun _ => ⟨s1, hs1, hi, hl⟩⟩

theorem C8_arrayFill_in_bounds_witness :
    (initState junk0).x.length = 10 ∧
    arrayFill 64 10 (initState junk0) ≠ Except.error Fault.outOfBounds ∧
    (10 ≤ 10 → ∃ s1, arrayFill 64 10 (initState junk0) = Except.ok s1 ∧ s1.i = 10 ∧
      s1.x.length = 10) :=
  ⟨by decide, C8_arrayFill_in_bounds 64 (initState junk0) (by decide) 10⟩

/-! ## The print loop -/

theorem loopStep_frame (t : IncrTarget) (s : State) :
    (loopIncr t (loopBody s)).fromASCII = s.fromASCII ∧
    (loopIncr t (loopBody s)).toASCII = s.toASCII ∧
    (loopIncr t (loopBody s)).x = s.x ∧
    (loopIncr t (loopBody s)).out = s.out ++ codeLine s.uc := by
  cases t <;> simp [loopIncr, loopBody]

theorem iterateLoop_frame (t : IncrTarget) (n : Nat) (s : State) :
    (iterateLoop t n s).fromASCII = s.fromASCII ∧
    (iterateLoop t n s).toASCII = s.toASCII ∧
    (iterateLoop t n s).x = s.x := by
  induction n generalizing s with
  | zero => simp [iterateLoop]
  | succ n ih =>
    simp only [iterateLoop]
    split
    · obtain ⟨h1, h2, h3, _⟩ := loopStep_frame t s
      obtain ⟨i1, i2, i3⟩ := ih (loopIncr t (loopBody s))
      exact ⟨i1.trans h1, i2.trans h2, i3.trans h3⟩
    · exact ⟨rfl, rfl, rfl⟩

theorem iterateLoop_out (t : IncrTarget) (n : Nat) (s : State) :
    (iterateLoop t n s).out = s.out ++ linesOf (emittedCodes t n s) := by
  induction n generalizing s with
  | zero => simp [iterateLoop, emittedCodes, linesOf]
  | succ n ih =>
    simp only [iterateLoop, emittedCodes]
    split
    · rw [ih, (loopStep_frame t s).2.2.2]
      simp [linesOf]
    · simp [linesOf]

theorem loopStart_fields (junk : State) :
    (loopStart junk).uc = 128 ∧ (loopStart junk).fromASCII = 128 ∧
    (loopStart junk).toASCII = 255 ∧ (loopStart junk).out = headerText ∧
    (loopStart junk).x = List.replicate 10 0 := by
  simp [loopStart, loopInit, printHeader, initState, toUChar]

theorem loopGuard_of_uchar (s : State) (hu : s.uc < 256) (ht : s.toASCII = 255) :
    loopGuard s = true := by
  simp [loopGuard, ht]
  omega

theorem loopStep_uc (s : State) :
    (loopIncr IncrTarget.uc (loopBody s)).uc = (s.uc + 1) % 256 := by
  simp [loopIncr, loopBody, toUChar]
  omega

theorem emittedCodes_uc (n : Nat) (s : State) (hu : s.uc < 256) (ht : s.toASCII = 255) :
    emittedCodes IncrTarget.uc n s = (List.range n).map (fun k => (s.uc + k) % 256) := by
  induction n generalizing s with
  | zero => simp [emittedCodes]
  | succ n ih =>
    have hg := loopGuard_of_uchar s hu ht
    have hu1 := loopStep_uc s
    have ht1 := (loopStep_frame IncrTarget.uc s).2.1
    simp only [emittedCodes, hg, if_true]
    rw [ih _ (by rw [hu1]; omega) (by rw [ht1, ht]), List.range_succ_eq_map, hu1]
    simp only [List.map_cons, List.map_map]
    congr 1
    · omega
    · apply List.map_congr_left
      intro k _
      simp only [Function.comp]
      omega

theorem iterateLoop_uc (n : Nat) (s : State) (hu : s.uc < 256) (ht : s.toASCII = 255) :
    (iterateLoop IncrTarget.uc n s).uc = (s.uc + n) % 256 := by
  induction n generalizing s with
  | zero => simp [iterateLoop]; omega
  | succ n ih =>
    have hg := loopGuard_of_uchar s hu ht
    have hu1 := loopStep_uc s
    have ht1 := (loopStep_frame IncrTarget.uc s).2.1
    simp only [iterateLoop, hg, if_true]
    rw [ih _ (by rw [hu1]; omega) (by rw [ht1, ht]), hu1]
    omega

theorem runLoop_uc (n : Nat) (s : State) (hu : s.uc < 256) (ht : s.toASCII = 255) :
    runLoop IncrTarget.uc n s = Except.error Fault.outOfFuel := by
  induction n generalizing s with
  | zero => simp [runLoop]
  | succ n ih =>
    have hg := loopGuard_of_uchar s hu ht
    have hu1 := loopStep_uc s
    have ht1 := (loopStep_frame IncrTarget.uc s).2.1
    simp only [runLoop, hg, if_true]
    exact ih _ (by rw [hu1]; omega) (by rw [ht1, ht])

theorem loopStep_uc_lt (t : IncrTarget) (s : State) (hu : s.uc < 256) :
    (loopIncr t (loopBody s)).uc < 256 := by
  cases t
  · rw [loopStep_uc]; omega
  · simpa [loopIncr, loopBody] using hu

theorem emittedCodes_lt (t : IncrTarget) (n : Nat) (s : State) (hu : s.uc < 256) :
    ∀ c ∈ emittedCodes t n s, c < 256 := by
  induction n generalizing s with
  | zero => simp [emittedCodes]
  | succ n ih =>
    intro c hc
    simp only [emittedCodes] at hc
    split at hc
    · rcases List.mem_cons.mp hc with h | h
      · rw [h]; exact hu
      · exact ih _ (loopStep_uc_lt t s hu) c h
    · simp at hc

set_option maxRecDepth 100000 in
theorem codeLine_shape_fin : ∀ c : Fin 256,
    (fmtD 3 c.val).length = 3 ∧ fmtC 2 c.val = [' ', Char.ofNat c.val] := by decide


/-! ## What follows the print loop -/

theorem writeX_out (s s1 : State) (idx v : Int) (h : writeX s idx v = Except.ok s1) :
    s1.out = s.out := by
  unfold writeX at h
  split at h
  · cases h; rfl
  · cases h

theorem fillBody_out (w : Nat) (s s1 : State) (h : fillBody w s = Except.ok s1) :
    s1.out = s.out := by
  unfold fillBody at h
  split at h
  · cases h
  · exact writeX_out _ _ _ _ h

theorem fillLoop_out (w : Nat) (n : Nat) (s s1 : State) (h : fillLoop w n s = Except.ok s1) :
    s1.out = s.out := by
  induction n generalizing s with
  | zero => simp [fillLoop] at h
  | succ n ih =>
    unfold fillLoop at h
    split at h
    · split at h
      · cases h
      · next s2 h2 =>
        rw [ih _ h]
        exact fillBody_out w s s2 h2
    · cases h; rfl

theorem arrayFill_out (w : Nat) (n : Nat) (s s1 : State) (h : arrayFill w n s = Except.ok s1) :
    s1.out = s.out := by
  unfold arrayFill at h
  split at h
  · cases h
  · next s2 h2 =>
    rw [fillLoop_out w n _ s1 h]
    exact writeX_out s s2 0 1 h2

theorem afterLoop_out (w : Nat) (n : Nat) (s s1 : State) (h : afterLoop w n s = Except.ok s1) :
    s1.out = s.out := by
  unfold afterLoop at h
  split at h
  · cases h
  · next s2 h2 =>
    cases h
    have := arrayFill_out w n _ s2 h2
    simpa [populateRecord, computeRealTest, computeX1] using this

/-! ## The claims on the print loop and on what follows it -/

set_option maxRecDepth 100000 in
/-- C3: evaluation at the run of `main` with `uc++` as increment.  The first
129 lines are those of the codes 128, ..., 255 and then 0: the code after 255
is 0, the order is not ascending, and within 385 iterations the line of code
128 is written twice. -/
theorem C3_codes_wrap_and_repeat (junk : State) :
    emittedCodes IncrTarget.uc 129 (loopStart junk)
      = (List.range 128).map (fun k => k + 128) ++ [0] ∧
    (iterateLoop IncrTarget.uc 129 (loopStart junk)).out
      = headerText ++ linesOf ((List.range 128).map (fun k => k + 128) ++ [0]) ∧
    (emittedCodes IncrTarget.uc 385 (loopStart junk)).count 128 = 2 := by
  obtain ⟨hu, _, ht, ho, _⟩ := loopStart_fields junk
  have h129 : emittedCodes IncrTarget.uc 129 (loopStart junk)
      = (List.range 128).map (fun k => k + 128) ++ [0] := by
    rw [emittedCodes_uc 129 _ (by omega) ht, hu]
    decide
  refine ⟨h129, ?_, ?_⟩
  · rw [iterateLoop_out, h129, ho]
  · rw [emittedCodes_uc 385 _ (by omega) ht, hu]
    decide

set_option maxRecDepth 100000 in
/-- C4 (as stated, refuted): the first line the loop writes is
`128: ` followed by the glyph of 128 and a newline; it has a colon between
the two fields and is 6 characters plus the newline. -/
theorem C4_counterexample :
    (iterateLoop IncrTarget.uc1 1 (loopStart junk0)).out = headerText ++ codeLine 128 ∧
    codeLine 128 = ['1', '2', '8', ':', ' ', Char.ofNat 128, '\n'] ∧
    codeLine 128 ≠ fmtD 3 128 ++ fmtC 2 128 ++ ['\n'] ∧
    (codeLine 128).length ≠ 5 + 1 := by
  decide

/-- C4 (amended): for every `unsigned char` value `c`, the line written for
`c` is the decimal representation of `c` right-justified in a field of 3
characters, a colon, the glyph of `c` right-justified in a field of 2
characters (a blank and the glyph), and a newline: 6 characters plus the
newline.  Every iteration of the loop appends exactly this line for the
current `uc`, and every code for which the loop writes a line is an
`unsigned char` value. -/
theorem C4_codeLine_format (c : Nat) (hc : c < 256) :
    codeLine c = rightJustify 3 (Nat.repr c).toList ++ [':'] ++
      rightJustify 2 [Char.ofNat c] ++ ['\n'] ∧
    (rightJustify 3 (Nat.repr c).toList).length = 3 ∧
    rightJustify 2 [Char.ofNat c] = [' ', Char.ofNat c] ∧
    (codeLine c).length = 6 + 1 ∧
    (∀ s : State, (loopBody s).out = s.out ++ codeLine s.uc) ∧
    ∀ (t : IncrTarget) (n : Nat) (junk : State),
      ∀ d ∈ emittedCodes t n (loopStart junk), d < 256 := by
  obtain ⟨h3, h2⟩ := codeLine_shape_fin ⟨c, hc⟩
  simp only [fmtD] at h3
  simp only [fmtC, Nat.mod_eq_of_lt hc] at h2
  refine ⟨?_, h3, h2, ?_, fun s => rfl, fun t n junk =>
    emittedCodes_lt t n _ (by rw [(loopStart_fields junk).1]; omega)⟩
  · simp [codeLine, fmtD, fmtC, Nat.mod_eq_of_lt hc]
  · rw [codeLine, fmtD, fmtC, Nat.mod_eq_of_lt hc, h2]
    simp only [List.length_append, List.length_cons, List.length_nil, h3]

theorem C4_codeLine_format_witness :
    200 < 256 ∧
    (codeLine 200 = rightJustify 3 (Nat.repr 200).toList ++ [':'] ++
      rightJustify 2 [Char.ofNat 200] ++ ['\n'] ∧
    (rightJustify 3 (Nat.repr 200).toList).length = 3 ∧
    rightJustify 2 [Char.ofNat 200] = [' ', Char.ofNat 200] ∧
    (codeLine 200).length = 6 + 1 ∧
    (∀ s : State, (loopBody s).out = s.out ++ codeLine s.uc) ∧
    ∀ (t : IncrTarget) (n : Nat) (junk : State),
      ∀ d ∈ emittedCodes t n (loopStart junk), d < 256) :=
  ⟨by decide, C4_codeLine_format 200 (by decide)⟩

set_option maxRecDepth 100000 in
/-- C5 (as stated, refuted): when the guard of the print loop is evaluated
first, standard output already holds the header and an empty line; after
128 iterations it holds 130 newline-terminated lines, not 128. -/
theorem C5_counterexample :
    (loopStart junk0).out = "Rozszerzone kody ASCII\n\n".toList ∧
    (loopStart junk0).out ≠ [] ∧
    (iterateLoop IncrTarget.uc 128 (loopStart junk0)).out.count '\n' = 130 := by
  decide

/-- C5 (amended): standard output starts with the header line and an empty
line, written before the first code line; after that the print loop appends
one code line per iteration and nothing else; the computations of `x1` and
`realTest`, the array fill and the record population write nothing. -/
theorem C5_output_frame (t : IncrTarget) (n : Nat) (junk : State)
    (w fuel : Nat) (s s1 : State) (h : afterLoop w fuel s = Except.ok s1) :
    (loopStart junk).out = "Rozszerzone kody ASCII\n\n".toList ∧
    (iterateLoop t n (loopStart junk)).out
      = "Rozszerzone kody ASCII\n\n".toList ++ linesOf (emittedCodes t n (loopStart junk)) ∧
    (emittedCodes t n (loopStart junk)).length ≤ n ∧
    (computeX1 s).out = s.out ∧ (computeRealTest s).out = s.out ∧
    (populateRecord s).out = s.out ∧
    s1.out = s.out := by
  obtain ⟨_, _, _, ho, _⟩ := loopStart_fields junk
  refine ⟨ho, ?_, ?_, rfl, rfl, rfl, afterLoop_out w fuel s s1 h⟩
  · rw [iterateLoop_out, ho]; rfl
  · generalize loopStart junk = s0
    induction n generalizing s0 with
    | zero => simp [emittedCodes]
    | succ n ih =>
      simp only [emittedCodes]
      split
      · simpa using ih _
      · simp

theorem C5_output_frame_witness :
    ∃ s1, afterLoop 64 10 (initState junk0) = Except.ok s1 ∧
    (loopStart junk0).out = "Rozszerzone kody ASCII\n\n".toList ∧
    (iterateLoop IncrTarget.uc1 3 (loopStart junk0)).out
      = "Rozszerzone kody ASCII\n\n".toList ++
        linesOf (emittedCodes IncrTarget.uc1 3 (loopStart junk0)) ∧
    (emittedCodes IncrTarget.uc1 3 (loopStart junk0)).length ≤ 3 ∧
    (computeX1 (initState junk0)).out = (initState junk0).out ∧
    (computeRealTest (initState junk0)).out = (initState junk0).out ∧
    (populateRecord (initState junk0)).out = (initState junk0).out ∧
    s1.out = (initState junk0).out :=
  ⟨_, rfl, C5_output_frame IncrTarget.uc1 3 junk0 64 10 (initState junk0) _ rfl⟩

/-- C6: evaluation at the run of `main` with `uc++` as increment.  After 128
iterations `uc` is 0 and the guard `uc <= toASCII` still holds; the print
loop exhausts every amount of fuel, so `main` never reaches the array fill. -/
theorem C6_loop_exhausts_fuel (w fuel : Nat) (junk : State) :
    (iterateLoop IncrTarget.uc 128 (loopStart junk)).uc = 0 ∧
    loopGuard (iterateLoop IncrTarget.uc 128 (loopStart junk)) = true ∧
    runLoop IncrTarget.uc fuel (loopStart junk) = Except.error Fault.outOfFuel ∧
    main IncrTarget.uc w fuel junk = Except.error Fault.outOfFuel := by
  obtain ⟨hu, _, ht, _, _⟩ := loopStart_fields junk
  have h0 : (iterateLoop IncrTarget.uc 128 (loopStart junk)).uc = 0 := by
    rw [iterateLoop_uc 128 _ (by omega) ht, hu]
  have hr := runLoop_uc fuel (loopStart junk) (by omega) ht
  refine ⟨h0, ?_, hr, ?_⟩
  · apply loopGuard_of_uchar
    · omega
    · rw [(iterateLoop_frame IncrTarget.uc 128 (loopStart junk)).2.1, ht]
  · simp [main, hr]

/-- C7: in every state the print loop can leave behind (after any number of
iterations, whichever variable the header increments), `fromASCII` is still
128 and `toASCII` still 255, and the initialiser of `x1` evaluates to 678,
which is `128 + 2 * (20 + 255)`. -/
theorem C7_x1_is_678 (t : IncrTarget) (n : Nat) (junk : State) :
    (iterateLoop t n (loopStart junk)).fromASCII = 128 ∧
    (iterateLoop t n (loopStart junk)).toASCII = 255 ∧
    (computeX1 (iterateLoop t n (loopStart junk))).x1 = 678 ∧
    (678 : Int) = 128 + 2 * (20 + 255) := by
  obtain ⟨_, hf, ht, _, _⟩ := loopStart_fields junk
  obtain ⟨h1, h2, _⟩ := iterateLoop_frame t n (loopStart junk)
  refine ⟨h1.trans hf, h2.trans ht, ?_, by norm_num⟩
  simp only [computeX1, h1, h2, hf, ht]
  decide

set_option maxRecDepth 100000 in
/-- C9: evaluation at the run of `main` with `uc++` as increment.  The 129th
iteration finds `uc = 0`, passes the guard and writes the line of code 0,
which is below 128. -/
theorem C9_line_for_code_zero (junk : State) :
    (iterateLoop IncrTarget.uc 128 (loopStart junk)).uc = 0 ∧
    (emittedCodes IncrTarget.uc 129 (loopStart junk))[128]? = some 0 ∧
    (iterateLoop IncrTarget.uc 129 (loopStart junk)).out
      = (iterateLoop IncrTarget.uc 128 (loopStart junk)).out ++ codeLine 0 := by
  obtain ⟨hu, _, ht, ho, _⟩ := loopStart_fields junk
  refine ⟨?_, ?_, ?_⟩
  · rw [iterateLoop_uc 128 _ (by omega) ht, hu]
  · rw [emittedCodes_uc 129 _ (by omega) ht, hu]
    decide
  · rw [iterateLoop_out, iterateLoop_out, emittedCodes_uc 129 _ (by omega) ht,
      emittedCodes_uc 128 _ (by omega) ht, hu, List.range_succ]
    simp [linesOf]

/-- C10: after the three assignments of the record population, `poczatek`
has `rok = 2018`, `miesiac = 10`, `dzien = 1`; the array `x` and the record
`koniec` are as before, and so is every other variable and the output. -/
theorem C10_record_population (s : State) :
    (populateRecord s).poczatek.rok = 2018 ∧
    (populateRecord s).poczatek.miesiac = 10 ∧
    (populateRecord s).poczatek.dzien = 1 ∧
    (populateRecord s).x = s.x ∧
    (populateRecord s).koniec = s.koniec ∧
    populateRecord s = { s with poczatek := ⟨2018, 10, 1⟩ } := by
  simp [populateRecord]

/-! ## The loop header as written, and the guard -/

theorem loopStep_uc1 (s : State) :
    (loopIncr IncrTarget.uc1 (loopBody s)).uc = s.uc ∧
    loopGuard (loopIncr IncrTarget.uc1 (loopBody s)) = loopGuard s := by
  simp [loopIncr, loopBody, loopGuard]

theorem iterateLoop_uc1 (n : Nat) (s : State) (hg : loopGuard s = true) :
    (iterateLoop IncrTarget.uc1 n s).uc = s.uc ∧
    loopGuard (iterateLoop IncrTarget.uc1 n s) = true := by
  induction n generalizing s with
  | zero => exact ⟨rfl, hg⟩
  | succ n ih =>
    obtain ⟨h1, h2⟩ := loopStep_uc1 s
    simp only [iterateLoop, hg, if_true]
    obtain ⟨i1, i2⟩ := ih _ (h2.trans hg)
    exact ⟨i1.trans h1, i2⟩

theorem emittedCodes_uc1 (n : Nat) (s : State) (hg : loopGuard s = true) :
    emittedCodes IncrTarget.uc1 n s = List.replicate n s.uc := by
  induction n generalizing s with
  | zero => simp [emittedCodes]
  | succ n ih =>
    obtain ⟨h1, h2⟩ := loopStep_uc1 s
    simp only [emittedCodes, hg, if_true]
    rw [ih _ (h2.trans hg), h1, List.replicate_succ]

theorem runLoop_uc1 (n : Nat) (s : State) (hg : loopGuard s = true) :
    runLoop IncrTarget.uc1 n s = Except.error Fault.outOfFuel := by
  induction n generalizing s with
  | zero => simp [runLoop]
  | succ n ih =>
    simp only [runLoop, hg, if_true]
    exact ih _ ((loopStep_uc1 s).2.trans hg)

theorem iterateLoop_inv (t : IncrTarget) (n : Nat) (s : State)
    (hu : s.uc < 256) (ht : s.toASCII = 255) :
    (iterateLoop t n s).uc < 256 ∧ (iterateLoop t n s).toASCII = 255 := by
  induction n generalizing s with
  | zero => exact ⟨hu, ht⟩
  | succ n ih =>
    simp only [iterateLoop, loopGuard_of_uchar s hu ht, if_true]
    exact ih _ (loopStep_uc_lt t s hu) (by rw [(loopStep_frame t s).2.1, ht])

/-- C11: with the loop header as written (`uc1++`, `uc1` a variable other
than `uc`), no iteration changes `uc`: at every evaluation of the guard
`uc` is 128 and the guard holds, every line written is the line of code 128,
and the print loop exhausts every amount of fuel, as does `main`. -/
theorem C11_literal_header_loops_on_128 (n w fuel : Nat) (junk : State) :
    (iterateLoop IncrTarget.uc1 n (loopStart junk)).uc = 128 ∧
    loopGuard (iterateLoop IncrTarget.uc1 n (loopStart junk)) = true ∧
    emittedCodes IncrTarget.uc1 n (loopStart junk) = List.replicate n 128 ∧
    (iterateLoop IncrTarget.uc1 n (loopStart junk)).out
      = headerText ++ linesOf (List.replicate n 128) ∧
    runLoop IncrTarget.uc1 fuel (loopStart junk) = Except.error Fault.outOfFuel ∧
    main IncrTarget.uc1 w fuel junk = Except.error Fault.outOfFuel := by
  obtain ⟨hu, _, ht, ho, _⟩ := loopStart_fields junk
  have hg : loopGuard (loopStart junk) = true :=
    loopGuard_of_uchar _ (by omega) ht
  obtain ⟨h1, h2⟩ := iterateLoop_uc1 n (loopStart junk) hg
  have he := emittedCodes_uc1 n (loopStart junk) hg
  have hr := runLoop_uc1 fuel (loopStart junk) hg
  rw [hu] at he
  refine ⟨h1.trans hu, h2, he, ?_, hr, ?_⟩
  · rw [iterateLoop_out, he, ho]
  · simp [main, hr]

/-- C12: the guard `uc <= toASCII` holds for every `unsigned char` value `v`
of `uc` (here `toASCII` is 255), incrementing `uc = 255` gives 0, and so the
guard holds in every state the print loop reaches, after any number of
iterations and whichever variable the header increments. -/
theorem C12_guard_always_holds (t : IncrTarget) (n : Nat) (junk : State)
    (v : Nat) (hv : v ≤ 255) :
    (loopStart junk).toASCII = 255 ∧
    loopGuard { loopStart junk with uc := v } = true ∧
    (loopIncr IncrTarget.uc { loopStart junk with uc := 255 }).uc = 0 ∧
    (iterateLoop t n (loopStart junk)).uc ≤ 255 ∧
    (iterateLoop t n (loopStart junk)).toASCII = 255 ∧
    loopGuard (iterateLoop t n (loopStart junk)) = true := by
  obtain ⟨hu, _, ht, _, _⟩ := loopStart_fields junk
  obtain ⟨i1, i2⟩ := iterateLoop_inv t n (loopStart junk) (by omega) ht
  refine ⟨ht, ?_, ?_, by omega, i2, loopGuard_of_uchar _ i1 i2⟩
  · exact loopGuard_of_uchar _ (by show v < 256; omega) (by show (loopStart junk).toASCII = 255; exact ht)
  · simp [loopIncr, toUChar]

theorem C12_guard_always_holds_witness :
    (255 : Nat) ≤ 255 ∧
    ((loopStart junk0).toASCII = 255 ∧
    loopGuard { loopStart junk0 with uc := 255 } = true ∧
    (loopIncr IncrTarget.uc { loopStart junk0 with uc := 255 }).uc = 0 ∧
    (iterateLoop IncrTarget.uc 300 (loopStart junk0)).uc ≤ 255 ∧
    (iterateLoop IncrTarget.uc 300 (loopStart junk0)).toASCII = 255 ∧
    loopGuard (iterateLoop IncrTarget.uc 300 (loopStart junk0)) = true) :=
  ⟨by decide, C12_guard_always_holds IncrTarget.uc 300 junk0 255 (by decide)⟩

/-! ## The values of the array fill and the width of `long int` -/

/-- With 32-bit `long int` the array fill ends normally; the last element is
the wrapped product. -/
theorem arrayFill_32_eq (s : State) (h : s.x.length = 10) (n : Nat) :
    arrayFill 32 (n + 10) s = Except.ok { s with
      x := [1, 1, 4, 36, 576, 14400, 518400, 25401600, 1625702400, -1462091776],
      i := 10 } := by
  obtain ⟨a0, a1, a2, a3, a4, a5, a6, a7, a8, a9, hx⟩ := list_length_ten s.x h
  simp [arrayFill, fillLoop, fillBody, readX, writeX, hx, wrapSigned, intBits]

/-- The state in which iteration `k + 1` of the fill loop starts (64-bit
`long int`): `i = k + 1`, and the read `x[i-1]` yields the listed value of
index `k`. -/
theorem arrayFillPrefix_64_read (s : State) (h : s.x.length = 10) (k : Nat) (hk : k ≤ 8) :
    ∃ sk, arrayFillPrefix 64 k s = Except.ok sk ∧ sk.i = (k : Int) + 1 ∧
      readX sk (sk.i - 1) = Except.ok (specSequence.getD k 0) := by
  obtain ⟨a0, a1, a2, a3, a4, a5, a6, a7, a8, a9, hx⟩ := list_length_ten s.x h
  interval_cases k <;>
    simp [arrayFillPrefix, fillIterate, fillBody, readX, writeX, hx, wrapSigned, intBits,
      specSequence]

/-- C13: after the array fill (64-bit `long int`), for every `i` in `[0,9]`
the element `x[i]` is the square of the factorial of `i`, as an exact
integer. -/
theorem C13_squared_factorials (s : State) (h : s.x.length = 10) (n : Nat) :
    ∃ s1, arrayFill 64 (n + 10) s = Except.ok s1 ∧
      ∀ i : Nat, i ≤ 9 → s1.x[i]? = some ((Nat.factorial i : Int) ^ 2) := by
  refine ⟨_, arrayFill_64_eq s h n, ?_⟩
  intro i hi
  interval_cases i <;> simp [specSequence, Nat.factorial]

theorem C13_squared_factorials_witness :
    (initState junk0).x.length = 10 ∧
    ∃ s1, arrayFill 64 (0 + 10) (initState junk0) = Except.ok s1 ∧
      ∀ i : Nat, i ≤ 9 → s1.x[i]? = some ((Nat.factorial i : Int) ^ 2) :=
  ⟨by decide, C13_squared_factorials (initState junk0) (by decide) 0⟩

/-- C14: with 64-bit `long int`, in the state in which iteration `i` of the
fill loop starts (`1 ≤ i ≤ 9`), the value `a` read from `x[i-1]` is such that
the intermediate product `a * i` and the final product `(a * i) * i` both lie
in `[0, 2^63 - 1]`; reduction to 64 bits changes neither, and the iteration
stores the exact product. -/
theorem C14_no_overflow_64 (s : State) (h : s.x.length = 10) (i : Nat)
    (h1 : 1 ≤ i) (h9 : i ≤ 9) :
    ∃ sk a, arrayFillPrefix 64 (i - 1) s = Except.ok sk ∧ sk.i = (i : Int) ∧
      readX sk (sk.i - 1) = Except.ok a ∧
      0 ≤ a * i ∧ a * i ≤ 2 ^ 63 - 1 ∧
      0 ≤ a * i * i ∧ a * i * i ≤ 2 ^ 63 - 1 ∧
      wrapSigned 64 (a * i) = a * i ∧
      wrapSigned 64 (wrapSigned 64 (a * i) * i) = a * i * i ∧
      fillBody 64 sk = writeX sk sk.i (a * i * i) := by
  obtain ⟨sk, hp, hi, hr⟩ := arrayFillPrefix_64_read s h (i - 1) (by omega)
  have hi1 : sk.i = (i : Int) := by rw [hi]; omega
  refine ⟨sk, specSequence.getD (i - 1) 0, hp, hi1, hr, ?_⟩
  have hw : wrapSigned 64 (specSequence.getD (i - 1) 0 * i)
        = specSequence.getD (i - 1) 0 * i ∧
      wrapSigned 64 (wrapSigned 64 (specSequence.getD (i - 1) 0 * i) * i)
        = specSequence.getD (i - 1) 0 * i * i := by
    interval_cases i <;> simp [specSequence, wrapSigned]
  refine ⟨?_, ?_, ?_, ?_, hw.1, hw.2, ?_⟩
  · interval_cases i <;> simp [specSequence]
  · interval_cases i <;> simp [specSequence]
  · interval_cases i <;> simp [specSequence]
  · interval_cases i <;> simp [specSequence]
  · have hr1 := hr
    rw [hi1] at hr1
    simp only [fillBody, hi1, hr1, hw.2]

theorem C14_no_overflow_64_witness :
    (initState junk0).x.length = 10 ∧ 1 ≤ 9 ∧ 9 ≤ 9 ∧
    ∃ sk a, arrayFillPrefix 64 (9 - 1) (initState junk0) = Except.ok sk ∧
      sk.i = ((9 : Nat) : Int) ∧
      readX sk (sk.i - 1) = Except.ok a ∧
      0 ≤ a * (9 : Nat) ∧ a * (9 : Nat) ≤ 2 ^ 63 - 1 ∧
      0 ≤ a * (9 : Nat) * (9 : Nat) ∧ a * (9 : Nat) * (9 : Nat) ≤ 2 ^ 63 - 1 ∧
      wrapSigned 64 (a * (9 : Nat)) = a * (9 : Nat) ∧
      wrapSigned 64 (wrapSigned 64 (a * (9 : Nat)) * (9 : Nat)) = a * (9 : Nat) * (9 : Nat) ∧
      fillBody 64 sk = writeX sk sk.i (a * (9 : Nat) * (9 : Nat)) :=
  ⟨by decide, by decide, by decide,
    C14_no_overflow_64 (initState junk0) (by decide) 9 (by decide) (by decide)⟩

/-- C15: with 32-bit `long int` (overflow reduced modulo 2^32 into the
signed range) the array fill ends normally with `x[0..8]` equal to
1, 1, 4, 36, 576, 14400, 518400, 25401600, 1625702400, but `x[9]` is
-1462091776 and not 131681894400, a value above `2^31 - 1`. -/
theorem C15_overflow_32 (s : State) (h : s.x.length = 10) (n : Nat) :
    ∃ s1, arrayFill 32 (n + 10) s = Except.ok s1 ∧
      s1.x.take 9 = [1, 1, 4, 36, 576, 14400, 518400, 25401600, 1625702400] ∧
      s1.x[9]? = some (-1462091776) ∧
      s1.x[9]? ≠ some 131681894400 ∧
      (2 ^ 31 - 1 : Int) < 131681894400 ∧
      wrapSigned 32 (wrapSigned 32 (1625702400 * 9) * 9) = -1462091776 := by
  refine ⟨_, arrayFill_32_eq s h n, ?_, ?_, ?_, ?_, ?_⟩
  · simp
  · simp
  · simp
  · norm_num
  · simp [wrapSigned]

theorem C15_overflow_32_witness :
    (initState junk0).x.length = 10 ∧
    ∃ s1, arrayFill 32 (0 + 10) (initState junk0) = Except.ok s1 ∧
      s1.x.take 9 = [1, 1, 4, 36, 576, 14400, 518400, 25401600, 1625702400] ∧
      s1.x[9]? = some (-1462091776) ∧
      s1.x[9]? ≠ some 131681894400 ∧
      (2 ^ 31 - 1 : Int) < 131681894400 ∧
      wrapSigned 32 (wrapSigned 32 (1625702400 * 9) * 9) = -1462091776 :=
  ⟨by decide, C15_overflow_32 (initState junk0) (by decide) 0⟩

end Test1
